import Mathlib

/-!
# Device authorization and skill-relay core: a shallow embedding

This file embeds the device-auth / settings / skill-queue core of the
server (`device_registry.py`, `device_settings.py`, `skills.py`) as pure
Lean functions, and proves the behavioural properties claimed of it.

Modelling conventions:
* Python `dict`s are insertion-ordered association lists; `pySet`
  replaces an existing key in place and appends a new one at the end,
  `pyDel` removes the entry, `pyGet` looks a key up, exactly like
  the `d[k] = v` / `del d[k]` / `d.get(k)` operations.
* Randomly generated identifiers and tokens (`secrets.token_hex`,
  `uuid.uuid4`) are passed in explicitly as arguments; freshness of a
  generated value is a hypothesis where a property depends on it.
* Wall-clock timestamps (`time.time()`) are abstract `Nat` ticks passed
  in by the caller; no property here depends on their arithmetic.
* Python truthiness of an optional string (`if device.auth_token:`) is
  `pyTruthy`: false for `None` and for the empty string.
-/

def pyGet {α : Type} : List (String × α) → String → Option α
  | [], _ => none
  | (k', v) :: rest, k => if k' = k then some v else pyGet rest k

def pySet {α : Type} : List (String × α) → String → α → List (String × α)
  | [], k, v => [(k, v)]
  | (k', v') :: rest, k, v =>
      if k' = k then (k, v) :: rest else (k', v') :: pySet rest k v

def pyDel {α : Type} : List (String × α) → String → List (String × α)
  | [], _ => []
  | (k', v') :: rest, k => if k' = k then rest else (k', v') :: pyDel rest k

def pyTruthy : Option String → Bool
  | none => false
  | some s => s != ""

/-- The keys of an association list are pairwise distinct (always true of
a list built only by `pySet` / `pyDel` from the empty list). -/
def nodupKeys {α : Type} (l : List (String × α)) : Prop :=
  List.Nodup (l.map Prod.fst)

/-! ## Device registry (`src/server/device_registry.py`) -/

inductive DeviceStatus where
  | pending
  | approved
  | rejected
deriving DecidableEq

/-- A registered device (`DeviceInfo` in the source). -/
structure DeviceInfo where
  device_id : String
  device_name : String := ""
  device_serial : String := ""
  status : DeviceStatus := DeviceStatus.pending
  auth_token : Option String := none
  registered_at : Nat := 0
  approved_at : Option Nat := none
deriving DecidableEq

/-- The in-memory registry state: `_devices` (id to record), `_tokens`
(token to id reverse lookup) and the optional `AGENT_AUTH_TOKEN`
environment override. -/
structure DeviceRegistry where
  devices : List (String × DeviceInfo) := []
  tokens : List (String × String) := []
  static_token : Option String := none
deriving DecidableEq

namespace DeviceRegistry

/-- Source `auth_enabled`: a static token is configured or some device is
currently `approved`. -/
def auth_enabled (reg : DeviceRegistry) : Bool :=
  reg.static_token.isSome
    || reg.devices.any (fun p => decide (p.2.status = DeviceStatus.approved))

/-- Scan of `self._devices.values()` for a matching serial. -/
def findBySerial : List (String × DeviceInfo) → String → Option DeviceInfo
  | [], _ => none
  | (_, d) :: rest, s =>
      if d.device_serial = s then some d else findBySerial rest s

/-- Source `register`: return the existing record when a non-empty serial
matches, otherwise create a fresh `pending` record under the freshly
generated id. -/
def register (reg : DeviceRegistry) (device_name device_serial fresh_id : String)
    (now : Nat) : DeviceInfo × DeviceRegistry :=
  match (if device_serial ≠ "" then findBySerial reg.devices device_serial else none) with
  | some d => (d, reg)
  | none =>
      let d : DeviceInfo :=
        { device_id := fresh_id, device_name := device_name,
          device_serial := device_serial, status := DeviceStatus.pending,
          auth_token := none, registered_at := now, approved_at := none }
      (d, { reg with devices := pySet reg.devices fresh_id d })

/-- Source `approve`: `None` when the id is unknown; an already-approved device
holding a (truthy) token is returned unchanged; otherwise the freshly
generated token is minted and the reverse mapping stored. -/
def approve (reg : DeviceRegistry) (device_id fresh_token : String) (now : Nat) :
    Option DeviceInfo × DeviceRegistry :=
  match pyGet reg.devices device_id with
  | none => (none, reg)
  | some d =>
      if d.status = DeviceStatus.approved ∧ pyTruthy d.auth_token = true then
        (some d, reg)
      else
        let d' : DeviceInfo :=
          { d with status := DeviceStatus.approved, auth_token := some fresh_token,
                   approved_at := some now }
        (some d',
          { reg with devices := pySet reg.devices device_id d',
                     tokens := pySet reg.tokens fresh_token device_id })

/-- Source `reject`: `None` when the id is unknown; otherwise the reverse token
mapping is deleted when the device held a (truthy) token that is present,
the status becomes `rejected` and the token field is cleared. -/
def reject (reg : DeviceRegistry) (device_id : String) :
    Option DeviceInfo × DeviceRegistry :=
  match pyGet reg.devices device_id with
  | none => (none, reg)
  | some d =>
      let tokens' :=
        match d.auth_token with
        | some t =>
            if t ≠ "" ∧ (pyGet reg.tokens t).isSome = true then pyDel reg.tokens t
            else reg.tokens
        | none => reg.tokens
      let d' : DeviceInfo :=
        { d with status := DeviceStatus.rejected, auth_token := none }
      (some d',
        { reg with devices := pySet reg.devices device_id d', tokens := tokens' })

/-- Source `validate_token`: the (truthy) static token matches, or the token is
in the reverse mapping. -/
def validate_token (reg : DeviceRegistry) (token : String) : Bool :=
  match reg.static_token with
  | some st => if st ≠ "" ∧ token = st then true else (pyGet reg.tokens token).isSome
  | none => (pyGet reg.tokens token).isSome

def get_device (reg : DeviceRegistry) (device_id : String) : Option DeviceInfo :=
  pyGet reg.devices device_id

/-- Source `get_token_for_device`: the device's token when it is approved. -/
def get_token_for_device (reg : DeviceRegistry) (device_id : String) : Option String :=
  match pyGet reg.devices device_id with
  | some d => if d.status = DeviceStatus.approved then d.auth_token else none
  | none => none

def get_all (reg : DeviceRegistry) : List DeviceInfo :=
  reg.devices.map Prod.snd

def clear (reg : DeviceRegistry) : DeviceRegistry :=
  { reg with devices := [], tokens := [] }

end DeviceRegistry

/-- The record produced when `approve` mints a token for device `d`. -/
def mintedInfo (d : DeviceInfo) (tok : String) (now : Nat) : DeviceInfo :=
  { d with status := DeviceStatus.approved, auth_token := some tok,
           approved_at := some now }

/-- The registry produced when `approve` mints a token for device `d`
stored under `did`. -/
def mintedReg (r : DeviceRegistry) (did tok : String) (d : DeviceInfo)
    (now : Nat) : DeviceRegistry :=
  { r with devices := pySet r.devices did (mintedInfo d tok now),
           tokens := pySet r.tokens tok did }

/-- The record produced when `reject` clears device `d`. -/
def rejectedInfo (d : DeviceInfo) : DeviceInfo :=
  { d with status := DeviceStatus.rejected, auth_token := none }

/-- The token/status invariant of claim C3: a stored device holds a
token exactly when its status is `approved`. -/
def TokenInvariant (r : DeviceRegistry) : Prop :=
  ∀ p ∈ r.devices, (p.2.auth_token.isSome = true ↔ p.2.status = DeviceStatus.approved)

/-- Registry states reachable from a freshly constructed registry (any
static token from the environment) through the mutating operations. -/
inductive Reachable : DeviceRegistry → Prop where
  | init (static_token : Option String) :
      Reachable { devices := [], tokens := [], static_token := static_token }
  | register (r : DeviceRegistry) (device_name device_serial fresh_id : String)
      (now : Nat) :
      Reachable r →
      Reachable (DeviceRegistry.register r device_name device_serial fresh_id now).2
  | approve (r : DeviceRegistry) (device_id fresh_token : String) (now : Nat) :
      Reachable r →
      Reachable (DeviceRegistry.approve r device_id fresh_token now).2
  | reject (r : DeviceRegistry) (device_id : String) :
      Reachable r → Reachable (DeviceRegistry.reject r device_id).2
  | clear (r : DeviceRegistry) :
      Reachable r → Reachable (DeviceRegistry.clear r)

/-! ## Device settings (`src/server/device_settings.py`) -/

/-- The settings blob pushed to the device, with the derived `revision`
counter and `last_modified` timestamp. -/
structure DeviceSettings where
  tts_suppressed : Bool := false
  gesture_injection_enabled : Bool := false
  trigger_mode : String := "SCREEN_CHANGE"
  buffer_size : Int := 20
  severity_filter : String := "SUGGESTION"
  show_notifications : Bool := true
  capture_full_metadata : Bool := true
  debug_logging : Bool := false
  revision : Int := 0
  last_modified : Nat := 0
deriving DecidableEq

/-- The keyword arguments of `DeviceSettingsManager.update`.  Keyword
arguments are a dictionary, so each recognized field appears at most
once; `none` means the field was not passed.  Arguments for the derived
fields `revision` / `last_modified` and unrecognized keys are carried
too: the source skips them (the `hasattr` check and the explicit
exclusion of the derived pair), so `update` below ignores them. -/
structure UpdateArgs where
  tts_suppressed : Option Bool := none
  gesture_injection_enabled : Option Bool := none
  trigger_mode : Option String := none
  buffer_size : Option Int := none
  severity_filter : Option String := none
  show_notifications : Option Bool := none
  capture_full_metadata : Option Bool := none
  debug_logging : Option Bool := none
  revision : Option Int := none
  last_modified : Option Nat := none
  unrecognized : List String := []
deriving DecidableEq

/-- One iteration of the update loop for one recognized, non-derived
field: the new value, and whether the stored value changed. -/
def applyField {α : Type} [DecidableEq α] (cur : α) (arg : Option α) : α × Bool :=
  match arg with
  | none => (cur, false)
  | some v => if cur = v then (cur, false) else (v, true)

/-- Does an argument assign a recognized, non-derived field a value that
differs from its current value?  (The spec's notion of a "genuine
change", compared against the source's `update` below.) -/
def fieldWouldChange {α : Type} [DecidableEq α] (cur : α) (arg : Option α) : Bool :=
  match arg with
  | none => false
  | some v => if cur = v then false else true

def genuineChange (s : DeviceSettings) (args : UpdateArgs) : Bool :=
  fieldWouldChange s.tts_suppressed args.tts_suppressed
    || fieldWouldChange s.gesture_injection_enabled args.gesture_injection_enabled
    || fieldWouldChange s.trigger_mode args.trigger_mode
    || fieldWouldChange s.buffer_size args.buffer_size
    || fieldWouldChange s.severity_filter args.severity_filter
    || fieldWouldChange s.show_notifications args.show_notifications
    || fieldWouldChange s.capture_full_metadata args.capture_full_metadata
    || fieldWouldChange s.debug_logging args.debug_logging

/-- Source `DeviceSettingsManager.update`: apply every recognized, non-derived
field whose value differs, and bump `revision` (and stamp
`last_modified`) exactly once when anything changed. -/
def DeviceSettings.update (s : DeviceSettings) (args : UpdateArgs) (now : Nat) :
    DeviceSettings :=
  let applied : DeviceSettings :=
    { s with
      tts_suppressed := (applyField s.tts_suppressed args.tts_suppressed).1,
      gesture_injection_enabled :=
        (applyField s.gesture_injection_enabled args.gesture_injection_enabled).1,
      trigger_mode := (applyField s.trigger_mode args.trigger_mode).1,
      buffer_size := (applyField s.buffer_size args.buffer_size).1,
      severity_filter := (applyField s.severity_filter args.severity_filter).1,
      show_notifications := (applyField s.show_notifications args.show_notifications).1,
      capture_full_metadata :=
        (applyField s.capture_full_metadata args.capture_full_metadata).1,
      debug_logging := (applyField s.debug_logging args.debug_logging).1 }
  let changed : Bool :=
    (applyField s.tts_suppressed args.tts_suppressed).2
    || (applyField s.gesture_injection_enabled args.gesture_injection_enabled).2
    || (applyField s.trigger_mode args.trigger_mode).2
    || (applyField s.buffer_size args.buffer_size).2
    || (applyField s.severity_filter args.severity_filter).2
    || (applyField s.show_notifications args.show_notifications).2
    || (applyField s.capture_full_metadata args.capture_full_metadata).2
    || (applyField s.debug_logging args.debug_logging).2
  if changed = true then
    { applied with revision := s.revision + 1, last_modified := now }
  else applied

/-- The `DeviceSettingsManager` holds the single settings blob. -/
structure DeviceSettingsManager where
  settings : DeviceSettings := {}
deriving DecidableEq

def DeviceSettingsManager.current (m : DeviceSettingsManager) : DeviceSettings :=
  m.settings

/-- Source `get_if_newer`: the blob only when its revision strictly exceeds the
client's last-seen revision. -/
def DeviceSettingsManager.get_if_newer (m : DeviceSettingsManager)
    (client_revision : Int) : Option DeviceSettings :=
  if m.settings.revision > client_revision then some m.settings else none

/-- The body of a settings poll: an optional blob (`none` is the cheap
not-modified path) plus an optionally attached token. -/
structure SettingsPollResponse where
  settings : Option DeviceSettings
  auth_token : Option String
deriving DecidableEq

/-- Modelled from the spec: the transport-layer handler of
`GET /settings?device_id=&revision=` is not present under `src/` (only
the tests exercise it); per §4.3 the poll response layer maps
`get_if_newer` to the body, and when a `device_id` is supplied it reads
the registry and attaches `get_token_for_device` to the payload
independently of whether the settings blob changed. -/
def settingsPoll (mgr : DeviceSettingsManager) (reg : DeviceRegistry)
    (client_revision : Int) (device_id : Option String) : SettingsPollResponse :=
  { settings := mgr.get_if_newer client_revision,
    auth_token :=
      match device_id with
      | some did => DeviceRegistry.get_token_for_device reg did
      | none => none }

/-! ## Skill queue (`src/server/skills.py`) -/

/-- Request to execute a skill on the device.  The `parameters` / `data`
dictionaries are opaque payloads here. -/
structure SkillExecRequest where
  skill_name : String
  parameters : List (String × String) := []
  timeout_ms : Int := 30000
deriving DecidableEq

structure SkillExecResponse where
  request_id : String
  skill_name : String
  success : Bool
  message : String := ""
  data : List (String × String) := []
  elapsed_ms : Int := 0
deriving DecidableEq

structure PendingSkill where
  request_id : String
  skill_name : String
  parameters : List (String × String) := []
  created_at : Nat := 0
deriving DecidableEq

structure SkillResultReport where
  request_id : String
  success : Bool
  message : String := ""
  data : List (String × String) := []
deriving DecidableEq

/-- The queue state: `_pending` (request id to command), `_futures`
(request ids with a live waiter) and `_history`.  (The `_results` dict
of the source is initialized but never read or written afterwards, so it
carries no behaviour.)  `execute` is split at its one suspension point
into `executeStart` (enqueue + create waiter) followed by either
`executeResolve` (a result arrived) or `executeTimeout` (the deadline
elapsed). -/
structure SkillQueue where
  pending : List (String × PendingSkill) := []
  futures : List String := []
  history : List SkillExecResponse := []
deriving DecidableEq

namespace SkillQueue

/-- First half of `execute`: store the pending command under the freshly
generated request id and create its waiter. -/
def executeStart (q : SkillQueue) (req : SkillExecRequest) (request_id : String)
    (now : Nat) : SkillQueue :=
  { q with
    pending := pySet q.pending request_id
      { request_id := request_id, skill_name := req.skill_name,
        parameters := req.parameters, created_at := now },
    futures := q.futures ++ [request_id] }

/-- Timeout arm of `execute`: pop the pending command and the waiter,
build the timed-out failure response and append it to history. -/
def executeTimeout (q : SkillQueue) (req : SkillExecRequest) (request_id : String) :
    SkillExecResponse × SkillQueue :=
  let response : SkillExecResponse :=
    { request_id := request_id, skill_name := req.skill_name, success := false,
      message := "Timeout after " ++ toString req.timeout_ms ++ "ms",
      data := [], elapsed_ms := req.timeout_ms }
  (response,
    { q with pending := pyDel q.pending request_id,
             futures := q.futures.erase request_id,
             history := q.history ++ [response] })

/-- Success arm of `execute`: the awaited future resolved with `res`;
build the response and append it to history. -/
def executeResolve (q : SkillQueue) (req : SkillExecRequest) (request_id : String)
    (res : SkillResultReport) (elapsed_ms : Int) : SkillExecResponse × SkillQueue :=
  let response : SkillExecResponse :=
    { request_id := request_id, skill_name := req.skill_name, success := res.success,
      message := res.message, data := res.data, elapsed_ms := elapsed_ms }
  (response, { q with history := q.history ++ [response] })

/-- Source `get_pending`: return every pending command and clear the queue. -/
def get_pending (q : SkillQueue) : List PendingSkill × SkillQueue :=
  (q.pending.map Prod.snd, { q with pending := [] })

/-- Source `claim`: pop a single pending command. -/
def claim (q : SkillQueue) (request_id : String) : Option PendingSkill × SkillQueue :=
  (pyGet q.pending request_id, { q with pending := pyDel q.pending request_id })

/-- Source `report_result`: pop and resolve the waiter; `false` when no waiter
exists for the reported id (the report is discarded). -/
def report_result (q : SkillQueue) (res : SkillResultReport) : Bool × SkillQueue :=
  if res.request_id ∈ q.futures then
    (true, { q with futures := q.futures.erase res.request_id })
  else
    (false, q)

/-- Source `get_history`: the Python slice `history[-limit:]` for a
non-negative `limit` — the whole list when `limit = 0`, else the last
`limit` entries. -/
def get_history (q : SkillQueue) (limit : Nat) : List SkillExecResponse :=
  if limit = 0 then q.history else q.history.drop (q.history.length - limit)

/-- Source `clear`: cancel all waiters, drop all pending commands (history kept). -/
def clear (q : SkillQueue) : SkillQueue :=
  { q with pending := [], futures := [] }

end SkillQueue

/-- An arbitrary interleaving step on the skill queue, used to express
temporal properties over whole operation traces. -/
inductive QOp where
  | start (req : SkillExecRequest) (request_id : String) (now : Nat)
  | timeoutFire (req : SkillExecRequest) (request_id : String)
  | resolveFire (req : SkillExecRequest) (request_id : String)
      (res : SkillResultReport) (elapsed_ms : Int)
  | reportRes (res : SkillResultReport)
  | drain
  | claimOne (request_id : String)
  | clearAll
deriving DecidableEq

def applyOp (q : SkillQueue) : QOp → SkillQueue
  | QOp.start req rid now => SkillQueue.executeStart q req rid now
  | QOp.timeoutFire req rid => (SkillQueue.executeTimeout q req rid).2
  | QOp.resolveFire req rid res e => (SkillQueue.executeResolve q req rid res e).2
  | QOp.reportRes res => (SkillQueue.report_result q res).2
  | QOp.drain => (SkillQueue.get_pending q).2
  | QOp.claimOne rid => (SkillQueue.claim q rid).2
  | QOp.clearAll => SkillQueue.clear q

def runOps : SkillQueue → List QOp → SkillQueue
  | q, [] => q
  | q, op :: rest => runOps (applyOp q op) rest

/-- The request ids freshly generated by the `execute` calls of a trace. -/
def startIds : List QOp → List String
  | [] => []
  | QOp.start _ rid _ :: rest => rid :: startIds rest
  | _ :: rest => startIds rest

def pendingIds (q : SkillQueue) : List String :=
  q.pending.map (fun p => p.2.request_id)

/-! ## Concrete example states used by the witnesses -/

def regEmpty : DeviceRegistry := {}

def regOne : DeviceRegistry :=
  (DeviceRegistry.register regEmpty "Pixel" "" "d1" 0).2

def regApproved : DeviceRegistry :=
  (DeviceRegistry.approve regOne "d1" "t1" 1).2

def regRejected : DeviceRegistry :=
  (DeviceRegistry.reject regApproved "d1").2

/-! ## Association-list lemmas -/

theorem pyGet_pySet_self {α : Type} (l : List (String × α)) (k : String) (v : α) :
    pyGet (pySet l k v) k = some v := by
  induction l with
  | nil => simp [pySet, pyGet]
  | cons q rest ih =>
    obtain ⟨k', v'⟩ := q
    by_cases h : k' = k
    · simp [pySet, h, pyGet]
    · simp [pySet, h, pyGet, ih]

theorem mem_pySet {α : Type} {l : List (String × α)} {k : String} {v : α}
    {p : String × α} (hp : p ∈ pySet l k v) : p = (k, v) ∨ p ∈ l := by
  induction l with
  | nil => simpa [pySet] using hp
  | cons q rest ih =>
    obtain ⟨k', v'⟩ := q
    by_cases h : k' = k
    · simp only [pySet, if_pos h, List.mem_cons] at hp
      rcases hp with h1 | h1
      · exact Or.inl h1
      · exact Or.inr (List.mem_cons_of_mem _ h1)
    · simp only [pySet, if_neg h, List.mem_cons] at hp
      rcases hp with h1 | h1
      · exact Or.inr (by simp [h1])
      · rcases ih h1 with h2 | h2
        · exact Or.inl h2
        · exact Or.inr (List.mem_cons_of_mem _ h2)

theorem pyGet_eq_none {α : Type} {l : List (String × α)} {k : String} :
    pyGet l k = none ↔ ∀ p ∈ l, p.1 ≠ k := by
  induction l with
  | nil => simp [pyGet]
  | cons q rest ih =>
    obtain ⟨k', v'⟩ := q
    by_cases h : k' = k
    · simp [pyGet, h]
    · simp [pyGet, h, ih]

theorem mem_pyDel {α : Type} {l : List (String × α)} {k : String}
    {p : String × α} (hp : p ∈ pyDel l k) : p ∈ l := by
  induction l with
  | nil => simp [pyDel] at hp
  | cons q rest ih =>
    obtain ⟨k', v'⟩ := q
    by_cases h : k' = k
    · simp only [pyDel, if_pos h] at hp
      exact List.mem_cons_of_mem _ hp
    · simp only [pyDel, if_neg h, List.mem_cons] at hp
      rcases hp with h1 | h1
      · simp [h1]
      · exact List.mem_cons_of_mem _ (ih h1)

theorem pyDel_pySet_of_fresh {α : Type} {l : List (String × α)} {k : String} (v : α)
    (h : pyGet l k = none) : pyDel (pySet l k v) k = l := by
  induction l with
  | nil => simp [pySet, pyDel]
  | cons q rest ih =>
    obtain ⟨k', v'⟩ := q
    by_cases hk : k' = k
    · simp [pyGet, hk] at h
    · have hrest : pyGet rest k = none := by
        simpa [pyGet, hk] using h
      simp [pySet, hk, pyDel, ih hrest]

theorem mem_pySet_of_nodup {α : Type} {l : List (String × α)} {k : String} {v : α}
    {p : String × α} (hn : nodupKeys l) (hp : p ∈ pySet l k v) :
    p = (k, v) ∨ (p ∈ l ∧ p.1 ≠ k) := by
  induction l with
  | nil => simpa [pySet] using hp
  | cons q rest ih =>
    obtain ⟨k', v'⟩ := q
    obtain ⟨hk', hnr⟩ := by
      simpa [nodupKeys, List.nodup_cons] using hn
    by_cases h : k' = k
    · simp only [pySet, if_pos h, List.mem_cons] at hp
      rcases hp with h1 | h1
      · exact Or.inl h1
      · refine Or.inr ⟨List.mem_cons_of_mem _ h1, ?_⟩
        intro hpk
        exact hk' p.2 (by
          have hmem : (p.1, p.2) ∈ rest := by simpa using h1
          simpa [hpk, h] using hmem)
    · simp only [pySet, if_neg h, List.mem_cons] at hp
      rcases hp with h1 | h1
      · refine Or.inr ⟨by simp [h1], ?_⟩
        simp [h1, h]
      · rcases ih hnr h1 with h2 | h2
        · exact Or.inl h2
        · exact Or.inr ⟨List.mem_cons_of_mem _ h2.1, h2.2⟩

theorem findBySerial_pySet (l : List (String × DeviceInfo)) (k s : String)
    (v : DeviceInfo) (hnone : DeviceRegistry.findBySerial l s = none)
    (hv : v.device_serial = s) :
    DeviceRegistry.findBySerial (pySet l k v) s = some v := by
  induction l with
  | nil => simp [pySet, DeviceRegistry.findBySerial, hv]
  | cons q rest ih =>
    obtain ⟨k', d'⟩ := q
    have h1 : ¬ d'.device_serial = s := by
      intro hc
      simp [DeviceRegistry.findBySerial, hc] at hnone
    have h2 : DeviceRegistry.findBySerial rest s = none := by
      simpa [DeviceRegistry.findBySerial, h1] using hnone
    by_cases hk : k' = k
    · simp [pySet, hk, DeviceRegistry.findBySerial, h1, hv]
    · simp [pySet, hk, DeviceRegistry.findBySerial, h1, ih h2]

theorem applyField_snd {α : Type} [DecidableEq α] (cur : α) (arg : Option α) :
    (applyField cur arg).2 = fieldWouldChange cur arg := by
  cases arg with
  | none => rfl
  | some v =>
    by_cases h : cur = v <;> simp [applyField, fieldWouldChange, h]

theorem erase_append_singleton {a : String} {l : List String} (h : a ∉ l) :
    (l ++ [a]).erase a = l := by
  induction l with
  | nil => simp
  | cons b rest ih =>
    have hab : ¬ b = a := by
      intro hc
      exact h (by simp [hc])
    have har : a ∉ rest := fun hc => h (List.mem_cons_of_mem _ hc)
    simp [List.erase_cons, hab, ih har]

/-! ## Invariant preservation lemmas for the registry -/

theorem tokenInvariant_register (r : DeviceRegistry) (n s fid : String) (now : Nat)
    (h : TokenInvariant r) :
    TokenInvariant (DeviceRegistry.register r n s fid now).2 := by
  unfold DeviceRegistry.register
  cases hf : (if s ≠ "" then DeviceRegistry.findBySerial r.devices s else none) with
  | some d => simpa using h
  | none =>
    intro p hp
    simp only at hp
    rcases mem_pySet hp with h1 | h1
    · simp [h1]
    · exact h p h1

theorem tokenInvariant_approve (r : DeviceRegistry) (did tok : String) (now : Nat)
    (h : TokenInvariant r) :
    TokenInvariant (DeviceRegistry.approve r did tok now).2 := by
  unfold DeviceRegistry.approve
  cases hget : pyGet r.devices did with
  | none => simpa using h
  | some d =>
    by_cases hc : d.status = DeviceStatus.approved ∧ pyTruthy d.auth_token = true
    · simpa [hc] using h
    · simp only [hc, if_false]
      intro p hp
      simp only at hp
      rcases mem_pySet hp with h1 | h1
      · simp [h1]
      · exact h p h1

theorem tokenInvariant_reject (r : DeviceRegistry) (did : String)
    (h : TokenInvariant r) :
    TokenInvariant (DeviceRegistry.reject r did).2 := by
  unfold DeviceRegistry.reject
  cases hget : pyGet r.devices did with
  | none => simpa using h
  | some d =>
    intro p hp
    simp only at hp
    rcases mem_pySet hp with h1 | h1
    · simp [h1]
    · exact h p h1

/-! ## Pending-set lemmas for operation traces -/

theorem startIds_cons_left {op : QOp} {rest : List QOp} {x : String}
    (h : x ∈ startIds [op]) : x ∈ startIds (op :: rest) := by
  cases op with
  | start req rid now =>
    simp only [startIds, List.mem_singleton] at h
    simp [startIds, h]
  | timeoutFire req rid => simp [startIds] at h
  | resolveFire req rid res e => simp [startIds] at h
  | reportRes res => simp [startIds] at h
  | drain => simp [startIds] at h
  | claimOne rid => simp [startIds] at h
  | clearAll => simp [startIds] at h

theorem startIds_cons_right {op : QOp} {rest : List QOp} {x : String}
    (h : x ∈ startIds rest) : x ∈ startIds (op :: rest) := by
  cases op <;> simp [startIds, h]

theorem applyOp_pendingIds {q : SkillQueue} {op : QOp} {x : String}
    (hx : x ∈ pendingIds (applyOp q op)) :
    x ∈ pendingIds q ∨ x ∈ startIds [op] := by
  cases op with
  | start req rid now =>
    simp only [applyOp, SkillQueue.executeStart, pendingIds, List.mem_map] at hx
    obtain ⟨p, hp, hpx⟩ := hx
    rcases mem_pySet hp with h1 | h1
    · right
      simp [startIds, ← hpx, h1]
    · left
      exact List.mem_map.mpr ⟨p, h1, hpx⟩
  | timeoutFire req rid =>
    left
    simp only [applyOp, SkillQueue.executeTimeout, pendingIds, List.mem_map] at hx
    obtain ⟨p, hp, hpx⟩ := hx
    exact List.mem_map.mpr ⟨p, mem_pyDel hp, hpx⟩
  | resolveFire req rid res e =>
    left
    simpa [applyOp, SkillQueue.executeResolve, pendingIds] using hx
  | reportRes res =>
    left
    by_cases hc : res.request_id ∈ q.futures <;>
      simpa [applyOp, SkillQueue.report_result, hc, pendingIds] using hx
  | drain =>
    simp [applyOp, SkillQueue.get_pending, pendingIds] at hx
  | claimOne rid =>
    left
    simp only [applyOp, SkillQueue.claim, pendingIds, List.mem_map] at hx
    obtain ⟨p, hp, hpx⟩ := hx
    exact List.mem_map.mpr ⟨p, mem_pyDel hp, hpx⟩
  | clearAll =>
    simp [applyOp, SkillQueue.clear, pendingIds] at hx

theorem runOps_pendingIds {ops : List QOp} {q : SkillQueue} {x : String}
    (hx : x ∈ pendingIds (runOps q ops)) :
    x ∈ pendingIds q ∨ x ∈ startIds ops := by
  induction ops generalizing q with
  | nil => exact Or.inl hx
  | cons op rest ih =>
    rcases ih (q := applyOp q op) hx with h | h
    · rcases applyOp_pendingIds h with h' | h'
      · exact Or.inl h'
      · exact Or.inr (startIds_cons_left h')
    · exact Or.inr (startIds_cons_right h)

/-! ## The claims -/

/-- Claim C1, counterexample: with no static token configured, register a
device, approve it (`auth_enabled` becomes true), then reject it —
`auth_enabled` drops back to false, refuting "after any device has been
approved it remains true thereafter, even if that (sole) approved device
is later rejected". -/
theorem claim1_counterexample :
    DeviceRegistry.auth_enabled regApproved = true
    ∧ DeviceRegistry.auth_enabled regRejected = false := by
  exact ⟨by decide, by decide⟩

/-- Claim C1 (amended): with no static override token, `auth_enabled` is
true exactly while at least one device currently has `approved` status;
in particular, rejecting the device that is the only one possibly
approved turns `auth_enabled` off again — the switch is not monotonic. -/
theorem claim1_auth_enabled_tracks_current_approval (r : DeviceRegistry) (did : String)
    (hstatic : r.static_token = none)
    (hnodup : nodupKeys r.devices)
    (hsole : ∀ p ∈ r.devices, p.2.status = DeviceStatus.approved → p.1 = did) :
    (DeviceRegistry.auth_enabled r = true
      ↔ ∃ p ∈ r.devices, p.2.status = DeviceStatus.approved)
    ∧ DeviceRegistry.auth_enabled (DeviceRegistry.reject r did).2 = false := by
  constructor
  · simp [DeviceRegistry.auth_enabled, hstatic, List.any_eq_true]
  · unfold DeviceRegistry.reject
    cases hget : pyGet r.devices did with
    | none =>
      have hnone : ∀ p ∈ r.devices, p.1 ≠ did := pyGet_eq_none.mp hget
      simp only [DeviceRegistry.auth_enabled, hstatic, Option.isSome_none,
        Bool.false_or, List.any_eq_false, decide_eq_true_eq]
      intro p hp hcontra
      exact hnone p hp (hsole p hp hcontra)
    | some d =>
      simp only [DeviceRegistry.auth_enabled, hstatic, Option.isSome_none,
        Bool.false_or, List.any_eq_false, decide_eq_true_eq]
      intro p hp hcontra
      rcases mem_pySet_of_nodup hnodup hp with h1 | h1
      · rw [h1] at hcontra
        simp at hcontra
      · exact h1.2 (hsole p h1.1 hcontra)

/-- Claim C1 witness: the amended statement instantiated on the concrete
register / approve / reject trace. -/
theorem claim1_witness :
    regApproved.static_token = none
    ∧ nodupKeys regApproved.devices
    ∧ (∀ p ∈ regApproved.devices, p.2.status = DeviceStatus.approved → p.1 = "d1")
    ∧ ((DeviceRegistry.auth_enabled regApproved = true
          ↔ ∃ p ∈ regApproved.devices, p.2.status = DeviceStatus.approved)
        ∧ DeviceRegistry.auth_enabled (DeviceRegistry.reject regApproved "d1").2 = false) :=
  ⟨by decide, by unfold nodupKeys; decide, by decide,
    claim1_auth_enabled_tracks_current_approval regApproved "d1" (by decide)
      (by unfold nodupKeys; decide) (by decide)⟩

/-- Claim C3: in every reachable registry state, a stored device record
holds a token exactly when its status is `approved`; the invariant holds
of the initial state and is preserved by `register`, `approve`, `reject`
and `clear`. -/
theorem claim3_token_iff_approved (r : DeviceRegistry) (h : Reachable r) :
    TokenInvariant r := by
  induction h with
  | init st =>
    intro p hp
    simp at hp
  | register r n s fid now _ ih => exact tokenInvariant_register r n s fid now ih
  | approve r did tok now _ ih => exact tokenInvariant_approve r did tok now ih
  | reject r did _ ih => exact tokenInvariant_reject r did ih
  | clear r _ ih =>
    intro p hp
    simp [DeviceRegistry.clear] at hp

/-- Claim C3 witness: the invariant applied to the approved record of a
concrete reachable state. -/
theorem claim3_witness :
    (({ device_id := "d1", device_name := "Pixel", device_serial := "",
        status := DeviceStatus.approved, auth_token := some "t1",
        registered_at := 0, approved_at := some 1 } : DeviceInfo).auth_token.isSome = true
      ↔ ({ device_id := "d1", device_name := "Pixel", device_serial := "",
           status := DeviceStatus.approved, auth_token := some "t1",
           registered_at := 0, approved_at := some 1 } : DeviceInfo).status
          = DeviceStatus.approved) :=
  claim3_token_iff_approved regApproved
    (Reachable.approve regOne "d1" "t1" 1
      (Reachable.register regEmpty "Pixel" "" "d1" 0 (Reachable.init none)))
    ("d1",
      { device_id := "d1", device_name := "Pixel", device_serial := "",
        status := DeviceStatus.approved, auth_token := some "t1",
        registered_at := 0, approved_at := some 1 })
    (by decide)

/-- Claim C4: registering twice with the same non-empty serial returns
the very same record and leaves the registry untouched: same device
identifier, same preserved record, and an unchanged device count. -/
theorem claim4_register_serial_idempotent (r : DeviceRegistry)
    (n1 n2 s id1 id2 : String) (t1 t2 : Nat) (hs : s ≠ "") :
    DeviceRegistry.register (DeviceRegistry.register r n1 s id1 t1).2 n2 s id2 t2
      = DeviceRegistry.register r n1 s id1 t1
    ∧ (DeviceRegistry.register (DeviceRegistry.register r n1 s id1 t1).2 n2 s id2 t2).1.device_id
      = (DeviceRegistry.register r n1 s id1 t1).1.device_id
    ∧ (DeviceRegistry.get_all
        (DeviceRegistry.register (DeviceRegistry.register r n1 s id1 t1).2 n2 s id2 t2).2).length
      = (DeviceRegistry.get_all (DeviceRegistry.register r n1 s id1 t1).2).length := by
  have key : DeviceRegistry.register (DeviceRegistry.register r n1 s id1 t1).2 n2 s id2 t2
      = DeviceRegistry.register r n1 s id1 t1 := by
    unfold DeviceRegistry.register
    rw [if_pos hs]
    cases hf : DeviceRegistry.findBySerial r.devices s with
    | some d =>
      simp only []
      rw [if_pos hs, hf]
    | none =>
      simp only []
      rw [if_pos hs]
      rw [findBySerial_pySet r.devices id1 s _ hf rfl]
  exact ⟨key, by rw [key], by rw [key]⟩

/-- Claim C4 witness: the idempotence facts on a concrete registry. -/
theorem claim4_witness :
    ("SN1" : String) ≠ ""
    ∧ (DeviceRegistry.register (DeviceRegistry.register regEmpty "A" "SN1" "d1" 0).2 "B" "SN1" "d2" 1
        = DeviceRegistry.register regEmpty "A" "SN1" "d1" 0
      ∧ (DeviceRegistry.register (DeviceRegistry.register regEmpty "A" "SN1" "d1" 0).2 "B" "SN1" "d2" 1).1.device_id
        = (DeviceRegistry.register regEmpty "A" "SN1" "d1" 0).1.device_id
      ∧ (DeviceRegistry.get_all
          (DeviceRegistry.register (DeviceRegistry.register regEmpty "A" "SN1" "d1" 0).2 "B" "SN1" "d2" 1).2).length
        = (DeviceRegistry.get_all (DeviceRegistry.register regEmpty "A" "SN1" "d1" 0).2).length) :=
  ⟨by decide, claim4_register_serial_idempotent regEmpty "A" "B" "SN1" "d1" "d2" 0 1 (by decide)⟩



/-! ## Branch equations for `approve` and `reject` -/

theorem approve_none_eq (r : DeviceRegistry) (did tok : String) (now : Nat)
    (hd : pyGet r.devices did = none) :
    DeviceRegistry.approve r did tok now = (none, r) := by
  simp only [DeviceRegistry.approve, hd]

theorem approve_already_eq (r : DeviceRegistry) (did tok : String) (now : Nat)
    (d : DeviceInfo) (hd : pyGet r.devices did = some d)
    (hc : d.status = DeviceStatus.approved ∧ pyTruthy d.auth_token = true) :
    DeviceRegistry.approve r did tok now = (some d, r) := by
  simp only [DeviceRegistry.approve, hd]
  rw [if_pos hc]

theorem approve_mint_eq (r : DeviceRegistry) (did tok : String) (now : Nat)
    (d : DeviceInfo) (hd : pyGet r.devices did = some d)
    (hc : ¬ (d.status = DeviceStatus.approved ∧ pyTruthy d.auth_token = true)) :
    DeviceRegistry.approve r did tok now
      = (some (mintedInfo d tok now), mintedReg r did tok d now) := by
  simp only [DeviceRegistry.approve, hd]
  rw [if_neg hc]
  rfl

theorem reject_revoking_eq (r : DeviceRegistry) (did tok : String) (d : DeviceInfo)
    (hd : pyGet r.devices did = some d) (htok : d.auth_token = some tok)
    (hne : tok ≠ "") (hsome : (pyGet r.tokens tok).isSome = true) :
    DeviceRegistry.reject r did
      = (some (rejectedInfo d),
         { r with devices := pySet r.devices did (rejectedInfo d),
                  tokens := pyDel r.tokens tok }) := by
  simp only [DeviceRegistry.reject, hd, htok]
  rw [if_pos ⟨hne, hsome⟩]
  rfl

/-- Claim C5: `approve` returns `NotFound` (`none`) exactly when the id
is unknown, and a second `approve` of the same device returns the same
record with the same token and leaves the registry unchanged (no new
token is minted); the token generated by the first call is non-empty, as
`secrets.token_hex` guarantees. -/
theorem claim5_approve_notfound_and_idempotent (r : DeviceRegistry)
    (did tok1 tok2 : String) (t1 t2 : Nat) (htok : tok1 ≠ "") :
    ((DeviceRegistry.approve r did tok1 t1).1 = none ↔ pyGet r.devices did = none)
    ∧ DeviceRegistry.approve (DeviceRegistry.approve r did tok1 t1).2 did tok2 t2
      = DeviceRegistry.approve r did tok1 t1 := by
  cases hget : pyGet r.devices did with
  | none =>
    rw [approve_none_eq r did tok1 t1 hget]
    exact ⟨by simp, approve_none_eq r did tok2 t2 hget⟩
  | some d =>
    by_cases hc : d.status = DeviceStatus.approved ∧ pyTruthy d.auth_token = true
    · rw [approve_already_eq r did tok1 t1 d hget hc]
      exact ⟨by simp, approve_already_eq r did tok2 t2 d hget hc⟩
    · rw [approve_mint_eq r did tok1 t1 d hget hc]
      have hget2 : pyGet (mintedReg r did tok1 d t1).devices did
          = some (mintedInfo d tok1 t1) :=
        pyGet_pySet_self r.devices did (mintedInfo d tok1 t1)
      have hc2 : (mintedInfo d tok1 t1).status = DeviceStatus.approved
          ∧ pyTruthy (mintedInfo d tok1 t1).auth_token = true := by
        refine ⟨rfl, ?_⟩
        simp [mintedInfo, pyTruthy, htok]
      exact ⟨by simp, approve_already_eq (mintedReg r did tok1 d t1) did tok2 t2
        (mintedInfo d tok1 t1) hget2 hc2⟩

/-- Claim C5 witness: the facts instantiated on a concrete registry with
one pending device. -/
theorem claim5_witness :
    ("t1" : String) ≠ ""
    ∧ (((DeviceRegistry.approve regOne "d1" "t1" 1).1 = none
        ↔ pyGet regOne.devices "d1" = none)
      ∧ DeviceRegistry.approve (DeviceRegistry.approve regOne "d1" "t1" 1).2 "d1" "t2" 2
        = DeviceRegistry.approve regOne "d1" "t1" 1) :=
  ⟨by decide, claim5_approve_notfound_and_idempotent regOne "d1" "t1" "t2" 1 2 (by decide)⟩

/-- Claim C6: a device approved with a fresh token `tok` and then
rejected has the token revoked: `validate_token tok` is false afterwards
(the reverse mapping is gone), the returned record and the stored record
have status `rejected`, and the token field is cleared.  Freshness of
the minted token (absent from the reverse map, non-empty, distinct from
any configured static token) models `secrets.token_hex`. -/
theorem claim6_reject_revokes_token (r : DeviceRegistry) (did tok : String)
    (t1 : Nat) (d : DeviceInfo)
    (hd : pyGet r.devices did = some d)
    (hnotapp : ¬ d.status = DeviceStatus.approved)
    (hfresh : pyGet r.tokens tok = none)
    (hne : tok ≠ "")
    (hst : ¬ r.static_token = some tok) :
    DeviceRegistry.validate_token
      (DeviceRegistry.reject (DeviceRegistry.approve r did tok t1).2 did).2 tok = false
    ∧ (DeviceRegistry.reject (DeviceRegistry.approve r did tok t1).2 did).1.map DeviceInfo.status
      = some DeviceStatus.rejected
    ∧ (DeviceRegistry.reject (DeviceRegistry.approve r did tok t1).2 did).1.map DeviceInfo.auth_token
      = some none
    ∧ (pyGet (DeviceRegistry.reject (DeviceRegistry.approve r did tok t1).2 did).2.devices did).map
        DeviceInfo.status = some DeviceStatus.rejected := by
  have hc : ¬ (d.status = DeviceStatus.approved ∧ pyTruthy d.auth_token = true) := by
    intro hcontra
    exact hnotapp hcontra.1
  rw [approve_mint_eq r did tok t1 d hd hc]
  have hgetdev : pyGet (mintedReg r did tok d t1).devices did = some (mintedInfo d tok t1) :=
    pyGet_pySet_self r.devices did (mintedInfo d tok t1)
  have hgettok : pyGet (mintedReg r did tok d t1).tokens tok = some did :=
    pyGet_pySet_self r.tokens tok did
  have hrej : DeviceRegistry.reject (mintedReg r did tok d t1) did
      = (some (rejectedInfo (mintedInfo d tok t1)),
         { mintedReg r did tok d t1 with
            devices := pySet (mintedReg r did tok d t1).devices did
              (rejectedInfo (mintedInfo d tok t1)),
            tokens := pyDel (mintedReg r did tok d t1).tokens tok }) :=
    reject_revoking_eq (mintedReg r did tok d t1) did tok (mintedInfo d tok t1)
      hgetdev rfl hne (by rw [hgettok]; rfl)
  rw [hrej]
  refine ⟨?_, rfl, rfl, ?_⟩
  · cases hopt : r.static_token with
    | none =>
      simp only [DeviceRegistry.validate_token, mintedReg, hopt]
      rw [pyDel_pySet_of_fresh did hfresh, hfresh]
      rfl
    | some st =>
      have hne2 : ¬ (st ≠ "" ∧ tok = st) := by
        intro hcontra
        exact hst (by rw [hopt, hcontra.2])
      simp only [DeviceRegistry.validate_token, mintedReg, hopt]
      rw [if_neg hne2]
      rw [pyDel_pySet_of_fresh did hfresh, hfresh]
      rfl
  · rw [pyGet_pySet_self]
    rfl

/-- Claim C6 witness: the revocation facts on the concrete
register / approve / reject trace. -/
theorem claim6_witness :
    pyGet regOne.devices "d1" = some
      { device_id := "d1", device_name := "Pixel", device_serial := "",
        status := DeviceStatus.pending, auth_token := none,
        registered_at := 0, approved_at := none }
    ∧ ¬ ({ device_id := "d1", device_name := "Pixel", device_serial := "",
           status := DeviceStatus.pending, auth_token := none,
           registered_at := 0, approved_at := none } : DeviceInfo).status
        = DeviceStatus.approved
    ∧ pyGet regOne.tokens "t1" = none
    ∧ ("t1" : String) ≠ ""
    ∧ ¬ regOne.static_token = some "t1"
    ∧ (DeviceRegistry.validate_token
        (DeviceRegistry.reject (DeviceRegistry.approve regOne "d1" "t1" 1).2 "d1").2 "t1" = false
      ∧ (DeviceRegistry.reject (DeviceRegistry.approve regOne "d1" "t1" 1).2 "d1").1.map DeviceInfo.status
        = some DeviceStatus.rejected
      ∧ (DeviceRegistry.reject (DeviceRegistry.approve regOne "d1" "t1" 1).2 "d1").1.map DeviceInfo.auth_token
        = some none
      ∧ (pyGet (DeviceRegistry.reject (DeviceRegistry.approve regOne "d1" "t1" 1).2 "d1").2.devices "d1").map
          DeviceInfo.status = some DeviceStatus.rejected) :=
  ⟨by decide, by decide, by decide, by decide, by decide,
    claim6_reject_revokes_token regOne "d1" "t1" 1
      { device_id := "d1", device_name := "Pixel", device_serial := "",
        status := DeviceStatus.pending, auth_token := none,
        registered_at := 0, approved_at := none }
      (by decide) (by decide) (by decide) (by decide) (by decide)⟩

/-- Claim C2: when a poll supplies the id of an approved device, the
response carries the device's `auth_token` for every client revision —
in particular on the not-modified path, where the client already has the
current revision and no settings body is returned.  (Settled against the
spec-modelled `settingsPoll` transport glue.) -/
theorem claim2_poll_delivers_token (mgr : DeviceSettingsManager)
    (reg : DeviceRegistry) (did t : String) (crev : Int) (d : DeviceInfo)
    (hd : pyGet reg.devices did = some d)
    (happ : d.status = DeviceStatus.approved)
    (htok : d.auth_token = some t) :
    (settingsPoll mgr reg crev (some did)).auth_token = some t
    ∧ (settingsPoll mgr reg mgr.settings.revision (some did)).settings = none
    ∧ (settingsPoll mgr reg mgr.settings.revision (some did)).auth_token = some t := by
  have htokfor : DeviceRegistry.get_token_for_device reg did = some t := by
    simp only [DeviceRegistry.get_token_for_device, hd]
    rw [if_pos happ]
    exact htok
  refine ⟨?_, ?_, ?_⟩
  · simp [settingsPoll, htokfor]
  · simp [settingsPoll, DeviceSettingsManager.get_if_newer]
  · simp [settingsPoll, htokfor]

/-- Claim C2 witness: the poll facts on a concrete registry holding one
approved device, with the default settings manager. -/
theorem claim2_witness :
    pyGet regApproved.devices "d1" = some
      { device_id := "d1", device_name := "Pixel", device_serial := "",
        status := DeviceStatus.approved, auth_token := some "t1",
        registered_at := 0, approved_at := some 1 }
    ∧ ({ device_id := "d1", device_name := "Pixel", device_serial := "",
         status := DeviceStatus.approved, auth_token := some "t1",
         registered_at := 0, approved_at := some 1 } : DeviceInfo).status
        = DeviceStatus.approved
    ∧ ({ device_id := "d1", device_name := "Pixel", device_serial := "",
         status := DeviceStatus.approved, auth_token := some "t1",
         registered_at := 0, approved_at := some 1 } : DeviceInfo).auth_token = some "t1"
    ∧ ((settingsPoll {} regApproved 7 (some "d1")).auth_token = some "t1"
      ∧ (settingsPoll {} regApproved ({} : DeviceSettingsManager).settings.revision
          (some "d1")).settings = none
      ∧ (settingsPoll {} regApproved ({} : DeviceSettingsManager).settings.revision
          (some "d1")).auth_token = some "t1") :=
  ⟨by decide, by decide, by decide,
    claim2_poll_delivers_token {} regApproved "d1" "t1" 7
      { device_id := "d1", device_name := "Pixel", device_serial := "",
        status := DeviceStatus.approved, auth_token := some "t1",
        registered_at := 0, approved_at := some 1 }
      (by decide) (by decide) (by decide)⟩

/-- Claim C7: `update` leaves `revision` unchanged when no recognized,
non-derived field receives a value different from its current one (in
particular for identical values, unrecognized keys only, or writes to
the derived `revision`/`last_modified` fields only), and increments
`revision` by exactly 1 when at least one such field genuinely changes,
no matter how many fields changed in the call. -/
theorem claim7_update_revision (s : DeviceSettings) (args : UpdateArgs) (now : Nat) :
    (DeviceSettings.update s args now).revision
      = if genuineChange s args = true then s.revision + 1 else s.revision := by
  simp only [DeviceSettings.update, genuineChange, applyField_snd]
  by_cases h : (fieldWouldChange s.tts_suppressed args.tts_suppressed
    || fieldWouldChange s.gesture_injection_enabled args.gesture_injection_enabled
    || fieldWouldChange s.trigger_mode args.trigger_mode
    || fieldWouldChange s.buffer_size args.buffer_size
    || fieldWouldChange s.severity_filter args.severity_filter
    || fieldWouldChange s.show_notifications args.show_notifications
    || fieldWouldChange s.capture_full_metadata args.capture_full_metadata
    || fieldWouldChange s.debug_logging args.debug_logging) = true
  · rw [if_pos h, if_pos h]
  · rw [if_neg h, if_neg h]

/-- Claim C8: when `execute` times out, it yields a well-formed failure
response (`success = false` with the descriptive timeout message), and
both the pending entry and the waiter for the request id are purged, so
a subsequent `report_result` for that id returns false and leaves the
queue untouched; a `report_result` whose id has no waiter likewise
returns false with the report discarded.  The generated request id is
fresh, as `uuid.uuid4` provides. -/
theorem claim8_timeout_purges (q q2 : SkillQueue) (req : SkillExecRequest)
    (rid : String) (now : Nat) (res res2 : SkillResultReport)
    (hres : res.request_id = rid)
    (hp : pyGet q.pending rid = none)
    (hf : rid ∉ q.futures)
    (h2 : res2.request_id ∉ q2.futures) :
    (SkillQueue.executeTimeout (SkillQueue.executeStart q req rid now) req rid).1.success = false
    ∧ (SkillQueue.executeTimeout (SkillQueue.executeStart q req rid now) req rid).1.message
        = "Timeout after " ++ toString req.timeout_ms ++ "ms"
    ∧ pyGet (SkillQueue.executeTimeout (SkillQueue.executeStart q req rid now) req rid).2.pending rid
        = none
    ∧ rid ∉ (SkillQueue.executeTimeout (SkillQueue.executeStart q req rid now) req rid).2.futures
    ∧ SkillQueue.report_result
        (SkillQueue.executeTimeout (SkillQueue.executeStart q req rid now) req rid).2 res
      = (false, (SkillQueue.executeTimeout (SkillQueue.executeStart q req rid now) req rid).2)
    ∧ SkillQueue.report_result q2 res2 = (false, q2) := by
  have hpend : (SkillQueue.executeTimeout (SkillQueue.executeStart q req rid now) req rid).2.pending
      = q.pending := by
    simp only [SkillQueue.executeTimeout, SkillQueue.executeStart]
    exact pyDel_pySet_of_fresh _ hp
  have hfut : (SkillQueue.executeTimeout (SkillQueue.executeStart q req rid now) req rid).2.futures
      = q.futures := by
    simp only [SkillQueue.executeTimeout, SkillQueue.executeStart]
    exact erase_append_singleton hf
  refine ⟨rfl, rfl, ?_, ?_, ?_, ?_⟩
  · rw [hpend]
    exact hp
  · rw [hfut]
    exact hf
  · simp only [SkillQueue.report_result, hfut, hres]
    rw [if_neg hf]
  · simp only [SkillQueue.report_result]
    rw [if_neg h2]

/-- Claim C8 witness: the timeout facts on an empty queue with a
concrete request. -/
theorem claim8_witness :
    ({ request_id := "r1", success := true } : SkillResultReport).request_id = "r1"
    ∧ pyGet ({} : SkillQueue).pending "r1" = none
    ∧ "r1" ∉ ({} : SkillQueue).futures
    ∧ ({ request_id := "zz", success := true } : SkillResultReport).request_id
        ∉ ({} : SkillQueue).futures
    ∧ ((SkillQueue.executeTimeout
          (SkillQueue.executeStart {} { skill_name := "snap", timeout_ms := 1000 } "r1" 0)
          { skill_name := "snap", timeout_ms := 1000 } "r1").1.success = false
      ∧ (SkillQueue.executeTimeout
          (SkillQueue.executeStart {} { skill_name := "snap", timeout_ms := 1000 } "r1" 0)
          { skill_name := "snap", timeout_ms := 1000 } "r1").1.message
          = "Timeout after " ++ toString ({ skill_name := "snap", timeout_ms := 1000 } : SkillExecRequest).timeout_ms ++ "ms"
      ∧ pyGet (SkillQueue.executeTimeout
          (SkillQueue.executeStart {} { skill_name := "snap", timeout_ms := 1000 } "r1" 0)
          { skill_name := "snap", timeout_ms := 1000 } "r1").2.pending "r1" = none
      ∧ "r1" ∉ (SkillQueue.executeTimeout
          (SkillQueue.executeStart {} { skill_name := "snap", timeout_ms := 1000 } "r1" 0)
          { skill_name := "snap", timeout_ms := 1000 } "r1").2.futures
      ∧ SkillQueue.report_result
          (SkillQueue.executeTimeout
            (SkillQueue.executeStart {} { skill_name := "snap", timeout_ms := 1000 } "r1" 0)
            { skill_name := "snap", timeout_ms := 1000 } "r1").2
          { request_id := "r1", success := true }
        = (false, (SkillQueue.executeTimeout
            (SkillQueue.executeStart {} { skill_name := "snap", timeout_ms := 1000 } "r1" 0)
            { skill_name := "snap", timeout_ms := 1000 } "r1").2)
      ∧ SkillQueue.report_result {} { request_id := "zz", success := true }
        = (false, ({} : SkillQueue))) :=
  ⟨by decide, by decide, by decide, by decide,
    claim8_timeout_purges {} {} { skill_name := "snap", timeout_ms := 1000 } "r1" 0
      { request_id := "r1", success := true } { request_id := "zz", success := true }
      (by decide) (by decide) (by decide) (by decide)⟩

/-- Claim C9: `get_pending` drains: it returns the entire current
pending set and clears it, so an immediate second call returns the empty
list; and across any subsequent trace of queue operations whose freshly
generated request ids do not collide with the drained ones (as
`uuid.uuid4` provides), no later poll ever returns a command with a
drained request id. -/
theorem claim9_get_pending_drains (q : SkillQueue) (ops : List QOp)
    (hops : ∀ rid ∈ startIds ops, ∀ p ∈ q.pending, p.2.request_id ≠ rid) :
    (SkillQueue.get_pending q).1 = q.pending.map Prod.snd
    ∧ (SkillQueue.get_pending (SkillQueue.get_pending q).2).1 = []
    ∧ ∀ c ∈ (SkillQueue.get_pending (runOps (SkillQueue.get_pending q).2 ops)).1,
        ∀ p ∈ q.pending, c.request_id ≠ p.2.request_id := by
  refine ⟨rfl, rfl, ?_⟩
  intro c hc p hp
  have hx : c.request_id ∈ pendingIds (runOps (SkillQueue.get_pending q).2 ops) := by
    simp only [SkillQueue.get_pending] at hc
    rcases List.mem_map.mp hc with ⟨pr, hpr, hpc⟩
    exact List.mem_map.mpr ⟨pr, hpr, by rw [hpc]⟩
  rcases runOps_pendingIds hx with h | h
  · simp [pendingIds, SkillQueue.get_pending] at h
  · intro hceq
    exact hops c.request_id h p hp hceq.symm

/-- Claim C9 witness: the drain facts on a queue holding one pending
command, followed by a fresh `execute` and a second drain. -/
theorem claim9_witness :
    (∀ rid ∈ startIds
        [QOp.start { skill_name := "s2", timeout_ms := 1000 } "b" 5, QOp.drain],
      ∀ p ∈ ({ pending := [("a", { request_id := "a", skill_name := "s1" })],
               futures := ["a"] } : SkillQueue).pending,
        p.2.request_id ≠ rid)
    ∧ ((SkillQueue.get_pending
          { pending := [("a", { request_id := "a", skill_name := "s1" })],
            futures := ["a"] }).1
        = ({ pending := [("a", { request_id := "a", skill_name := "s1" })],
             futures := ["a"] } : SkillQueue).pending.map Prod.snd
      ∧ (SkillQueue.get_pending (SkillQueue.get_pending
          { pending := [("a", { request_id := "a", skill_name := "s1" })],
            futures := ["a"] }).2).1 = []
      ∧ ∀ c ∈ (SkillQueue.get_pending (runOps (SkillQueue.get_pending
          { pending := [("a", { request_id := "a", skill_name := "s1" })],
            futures := ["a"] }).2
          [QOp.start { skill_name := "s2", timeout_ms := 1000 } "b" 5, QOp.drain])).1,
          ∀ p ∈ ({ pending := [("a", { request_id := "a", skill_name := "s1" })],
                   futures := ["a"] } : SkillQueue).pending,
            c.request_id ≠ p.2.request_id) :=
  ⟨by decide,
    claim9_get_pending_drains
      { pending := [("a", { request_id := "a", skill_name := "s1" })], futures := ["a"] }
      [QOp.start { skill_name := "s2", timeout_ms := 1000 } "b" 5, QOp.drain]
      (by decide)⟩

/-- Claim C10: `get_history limit` always returns a suffix of the
history; for positive `limit` it is the most recent `min limit n`
entries in order, while `get_history 0` returns the entire history (the
slice `history[-0:]` is the whole list), not the empty list. -/
theorem claim10_get_history_slice (q : SkillQueue) (limit : Nat) :
    SkillQueue.get_history q 0 = q.history
    ∧ (SkillQueue.get_history q limit).length
        = (if limit = 0 then q.history.length else min limit q.history.length)
    ∧ q.history.take (q.history.length - (SkillQueue.get_history q limit).length)
        ++ SkillQueue.get_history q limit = q.history := by
  refine ⟨by simp [SkillQueue.get_history], ?_, ?_⟩
  · by_cases h : limit = 0
    · simp [SkillQueue.get_history, h]
    · simp only [SkillQueue.get_history, if_neg h, List.length_drop]
      omega
  · by_cases h : limit = 0
    · simp [SkillQueue.get_history, h]
    · simp only [SkillQueue.get_history, if_neg h, List.length_drop]
      have harith : q.history.length - (q.history.length - (q.history.length - limit))
          = q.history.length - limit := by
        omega
      rw [harith, List.take_append_drop]
